import Mathlib

/-! Verification development for the Go client generator
(codegen/generator/go/generator.go): a shallow embedding of the
bootstrap, manifest reconciliation and rendering pipeline, with theorems
checking the specified properties against the embedded code. -/

namespace DaggerGoGen

/-! ASCII character helpers mirroring the byte comparisons done by the Go
sources (the strcase library iterates over the bytes of the string). -/

/-- True when the character is an ASCII capital letter, as in the Go test
v greater-equal 65 and less-equal 90. -/
def isUpperAZ (c : Char) : Bool := decide (65 ≤ c.toNat) && decide (c.toNat ≤ 90)

/-- True when the character is an ASCII lowercase letter. -/
def isLowerAZ (c : Char) : Bool := decide (97 ≤ c.toNat) && decide (c.toNat ≤ 122)

/-- True when the character is an ASCII digit. -/
def isDigit09 (c : Char) : Bool := decide (48 ≤ c.toNat) && decide (c.toNat ≤ 57)

/-- Lowercase an ASCII capital letter, other characters unchanged. -/
def lowerAZ (c : Char) : Char := if isUpperAZ c then Char.ofNat (c.toNat + 32) else c

/-- Uppercase an ASCII lowercase letter, other characters unchanged. -/
def upperAZ (c : Char) : Char := if isLowerAZ c then Char.ofNat (c.toNat - 32) else c

/-- ASCII whitespace recognized by strings.TrimSpace in Go. -/
def isSpaceGo (c : Char) : Bool :=
  c == ' ' || c == '\t' || c == '\n' || c == '\r' ||
    decide (c.toNat = 11) || decide (c.toNat = 12)

/-- Embedding of strings.TrimSpace restricted to ASCII input. -/
def trimSpaceGo (cs : List Char) : List Char :=
  ((cs.dropWhile isSpaceGo).reverse.dropWhile isSpaceGo).reverse

/-- Embedding of the per byte loop of strcase.ToScreamingDelimited with
delimiter hyphen, no ignore set and screaming false, exactly the
configuration reached from strcase.ToKebab; prev carries the previous
original byte of the input, as the Go loop reads it with an index. -/
def kebabCore (prev : Option Char) : List Char → List Char
  | [] => []
  | v0 :: rest =>
    let vIsCap := isUpperAZ v0
    let vIsLow := isLowerAZ v0
    let v := if vIsCap then lowerAZ v0 else v0
    let acro : Option (List Char) :=
      match rest with
      | [] => none
      | next :: _ =>
        let vIsNum := isDigit09 v
        let nextIsCap := isUpperAZ next
        let nextIsLow := isLowerAZ next
        let nextIsNum := isDigit09 next
        if (vIsCap && (nextIsLow || nextIsNum)) ||
            (vIsLow && (nextIsCap || nextIsNum)) ||
            (vIsNum && (nextIsCap || nextIsLow)) then
          let prevIsCap := match prev with
            | some p => isUpperAZ p
            | none => false
          let pre : List Char := if vIsCap && nextIsLow && prevIsCap then ['-'] else []
          let post : List Char := if vIsLow || vIsNum || nextIsNum then ['-'] else []
          some (pre ++ [v] ++ post)
        else none
    match acro with
    | some out => out ++ kebabCore (some v0) rest
    | none =>
      (if v == ' ' || v == '_' || v == '-' then ['-'] else [v]) ++ kebabCore (some v0) rest

/-- Embedding of strcase.ToKebab: trim, then the delimited walk. -/
def toKebab (s : String) : String := String.mk (kebabCore none (trimSpaceGo s.toList))

/-- Embedding of the loop of strcase.toCamelInitCase; capNext starts true
for ToCamel and first tracks whether we are at index zero. -/
def camelCore (capNext first : Bool) : List Char → List Char
  | [] => []
  | v0 :: rest =>
    let vIsCap := isUpperAZ v0
    let vIsLow := isLowerAZ v0
    let v := if capNext then (if vIsLow then upperAZ v0 else v0)
      else if first then (if vIsCap then lowerAZ v0 else v0)
      else v0
    if vIsCap || vIsLow then v :: camelCore false false rest
    else if isDigit09 v then v :: camelCore true false rest
    else camelCore (v == '_' || v == ' ' || v == '-' || v == '.') false rest

/-- Embedding of strcase.ToCamel: trim, then the init case walk with
capNext initially true. -/
def toCamel (s : String) : String := String.mk (camelCore true true (trimSpaceGo s.toList))

example : toKebab ("My Cool Thing") = "my-cool-thing" := by decide
example : toCamel ("My Cool Thing") = "MyCoolThing" := by decide
example : toKebab ("") = "" := by decide
example : toCamel ("") = "" := by decide
example : toKebab ("cool") = "cool" := by decide
example : toCamel ("cool") = "Cool" := by decide

/-! Embedding of the parts of golang.org/x/mod/modfile used by
bootstrapPkg: a parsed go.mod is a declared module path plus a list of
require lines, each a module path with a version. -/

/-- One require line of a go.mod file. -/
structure Require where
  path : String
  version : String
deriving DecidableEq, Repr

/-- A parsed go.mod file: the module statement and the require lines. -/
structure ModFile where
  modulePath : String
  require : List Require
deriving DecidableEq, Repr

/-- Helper for modfile.File.AddRequire when the path is already present:
the first line for the path gets the new version and later duplicates of
the path are removed, as the x/mod implementation does. -/
def addRequireUpdate : List Require → String → String → List Require
  | [], _, _ => []
  | r :: rs, p, v =>
    if r.path == p then ⟨p, v⟩ :: rs.filter (fun r2 => r2.path != p)
    else r :: addRequireUpdate rs p v

/-- Embedding of modfile.File.AddRequire: set the first require line for
the path to the version, removing duplicates; if no line exists for the
path, append a new line. -/
def ModFile.addRequire (m : ModFile) (p v : String) : ModFile :=
  if m.require.any (fun r => r.path == p) then
    { m with require := addRequireUpdate m.require p v }
  else
    { m with require := m.require ++ [⟨p, v⟩] }

/-- Embedding of modfile.File.SetRequire as used on a fresh file: the
require list becomes exactly the given list. -/
def ModFile.setRequire (m : ModFile) (reqs : List Require) : ModFile :=
  { m with require := reqs }

/-- Embedding of modfile.File.AddModuleStmt on a fresh file. -/
def ModFile.addModuleStmt (m : ModFile) (p : String) : ModFile :=
  { m with modulePath := p }

/-- The loop of bootstrapPkg over the requires of the embedded SDK go.mod:
every baseline require is upserted by path into the existing manifest. -/
def reconcileRequirements (cur : ModFile) (sdk : List Require) : ModFile :=
  sdk.foldl (fun m r => m.addRequire r.path r.version) cur

/-- Version recorded for a path in a manifest: the version of the first
require line whose path matches. -/
def ModFile.lookupVersion (m : ModFile) (p : String) : Option String :=
  (m.require.find? (fun r => r.path == p)).map (fun r => r.version)

/-! A small file system model. Directories are flat maps from file names
to contents; Go source files carry the package name their package clause
declares next to their text, and a go.mod carries its parse result, with
none standing for a malformed manifest. -/

/-- Content of one file in a directory. -/
inductive FileContent where
  | goSrc (pkg : String) (text : String)
  | goMod (parsed : Option ModFile)
  | raw (text : String)
deriving DecidableEq, Repr

/-- A directory: an association list from file name to content. -/
structure FS where
  files : List (String × FileContent)
deriving DecidableEq, Repr

/-- Read a file: first entry with the name wins. -/
def FS.lookup (fs : FS) (name : String) : Option FileContent :=
  (fs.files.find? (fun e => e.1 == name)).map (fun e => e.2)

/-- Write a file, replacing any previous entry with the same name. -/
def FS.write (fs : FS) (name : String) (c : FileContent) : FS :=
  ⟨(name, c) :: fs.files.filter (fun e => e.1 != name)⟩

/-- Apply a generated layer on top of a base directory: entries of the
layer shadow entries of the base, which is how the caller materializes
the overlay of a GeneratedState. -/
def FS.applyLayer (base layer : FS) : FS :=
  ⟨layer.files ++ base.files.filter (fun e => (layer.lookup e.1).isNone)⟩

/-- Package names declared by the Go source files of a directory. -/
def goSrcPkgs (fs : FS) : List String :=
  fs.files.filterMap (fun e =>
    match e.2 with
    | FileContent.goSrc p _ => some p
    | _ => none)

/-- Distinct packages the loader finds in a directory, in file order. -/
def goPackagesAt (fs : FS) : List String := (goSrcPkgs fs).dedup

/-- Errors of loadPackage: the not found case (no packages in the
directory) and the ambiguity case (more than one package found). -/
inductive LoadErr where
  | notFound
  | ambiguous (n : Nat)
deriving DecidableEq, Repr

/-- The package value loadPackage returns on success. -/
structure GoPackage where
  name : String
deriving DecidableEq, Repr

/-- Embedding of loadPackage (generator.go lines 241 to 266): load the
packages of the directory; zero packages is an error, exactly one is
returned, more than one is an error. -/
def loadPackage (dir : FS) : Except LoadErr GoPackage :=
  match goPackagesAt dir with
  | [] => Except.error LoadErr.notFound
  | [p] => Except.ok ⟨p⟩
  | ps => Except.error (LoadErr.ambiguous ps.length)

/-- Fixed name of the generated client file. -/
def ClientGenFile : String := "dagger.gen.go"

/-- Fixed name of the scaffolded starter file. -/
def StarterTemplateFile : String := "main.go"

/-- Embedding of GoGenerator.baseModuleSource: the starter source text,
with the exported type named by the camel case form of the module name. -/
def baseModuleSource (moduleName : String) : String :=
  let n := toCamel moduleName
  "package main\n\nimport (\n\t\"context\"\n)\n\ntype " ++ n ++ " struct \x7b\x7d\n\nfunc (m *"
    ++ n
    ++ ") MyFunction(ctx context.Context, stringArg string) (*Container, error) \x7b\n\treturn dag.Container().From(\"alpine:latest\").WithExec([]string\x7b\"echo\", stringArg\x7d).Sync(ctx)\n\x7d\n"

/-- Identity of the probed workspace, mirroring PackageInfo. -/
structure PackageInfo where
  PackageName : String
  ModulePath : String
deriving DecidableEq, Repr

/-- Errors Generate can return in this embedding. -/
inductive GenError where
  | parseGoMod
  | template (msg : String)
  | formatting (source : String)
  | importsProcessing (source : String)
deriving DecidableEq, Repr

/-- The probe step of bootstrapPkg (generator.go lines 169 to 179): when
loadPackage succeeds the existing package name is used, and on any
loadPackage error the fallback name main is substituted. -/
def probePackageName (outDir : FS) : String :=
  match loadPackage outDir with
  | Except.ok modPkg => modPkg.name
  | Except.error _ => "main"

/-- The scaffold step of bootstrapPkg (generator.go lines 181 to 193):
when the starter file is absent from the output directory the starter
source is written into the in memory layer and needsRegen becomes true;
when it is present nothing is written and needsRegen stays false. -/
def scaffoldStarter (moduleName : String) (outDir mfs : FS) : FS × Bool :=
  if (outDir.lookup StarterTemplateFile).isSome then (mfs, false)
  else (mfs.write StarterTemplateFile
          (FileContent.goSrc ("main") (baseModuleSource moduleName)), true)

/-- The go.mod step of bootstrapPkg (generator.go lines 201 to 225): when
a go.mod exists in the output directory it is parsed (a malformed file is
a fatal error) and every baseline require is upserted into it, keeping
its module statement; when none exists a fresh manifest is created whose
module statement is the kebab case module name and whose require list is
exactly the baseline. Returns the manifest to write and the module path
recorded in PackageInfo. -/
def resolveGoMod (moduleName : String) (outDir : FS) (sdkRequire : List Require) :
    Except GenError (ModFile × String) :=
  match outDir.lookup ("go.mod") with
  | some (FileContent.goMod (some currentMod)) =>
    Except.ok (reconcileRequirements currentMod sdkRequire, currentMod.modulePath)
  | some _ => Except.error GenError.parseGoMod
  | none =>
    let newModName := toKebab moduleName
    Except.ok (ModFile.setRequire (ModFile.addModuleStmt ⟨"", []⟩ newModName) sdkRequire,
      newModName)

/-- Content of the embedded go.sum lock shipped with the SDK, abstracted
as an unstructured constant (dagger.GoSum in the source). -/
def daggerGoSum : String := "embedded SDK go.sum"

/-- Embedding of GoGenerator.bootstrapPkg (generator.go lines 164 to
239): probe the package name, scaffold the starter when absent, build the
manifest, and write go.mod and go.sum into the in memory layer. Returns
the package info, the needsRegen flag and the updated layer. -/
def bootstrapPkg (moduleName : String) (outDir mfs : FS) (sdkRequire : List Require) :
    Except GenError (PackageInfo × Bool × FS) :=
  let pkgName := probePackageName outDir
  match scaffoldStarter moduleName outDir mfs with
  | (mfs1, needsRegen) =>
    match resolveGoMod moduleName outDir sdkRequire with
    | Except.error e => Except.error e
    | Except.ok (newMod, modulePath) =>
      let mfs2 := (mfs1.write ("go.mod") (FileContent.goMod (some newMod))).write
        ("go.sum") (FileContent.raw daggerGoSum)
      Except.ok (⟨pkgName, modulePath⟩, needsRegen, mfs2)

/-- One named type of the schema. -/
structure SchemaType where
  name : String
deriving DecidableEq, Repr

/-- The introspected schema: four kinds of types, each in the stable
order the visitor delivers them. -/
structure Schema where
  scalars : List SchemaType
  objects : List SchemaType
  enums : List SchemaType
  inputs : List SchemaType
deriving DecidableEq, Repr

/-- Modelled from the spec: the section templates (package templates,
missing from src) are deterministic functions of the data Generate passes
to Execute, and Execute may fail; the object template additionally
receives the IsModuleCode flag. -/
structure Templates where
  headerTpl : PackageInfo → Schema → Except String String
  scalarTpl : SchemaType → Except String String
  objectTpl : SchemaType → Bool → Except String String
  enumTpl : SchemaType → Except String String
  inputTpl : SchemaType → Except String String
  moduleTpl : Schema → String → Except String String

/-- Render every element of a list with a fallible renderer, stopping at
the first failure, as the visitor handlers in Generate do. -/
def mapRender {α : Type} (f : α → Except String String) : List α → Except String (List String)
  | [] => Except.ok []
  | t :: ts =>
    match f t with
    | Except.error e => Except.error e
    | Except.ok s =>
      match mapRender f ts with
      | Except.error e => Except.error e
      | Except.ok rest => Except.ok (s :: rest)

/-- Modelled from the spec: introspection Schema.Visit (missing from src)
delivers each type exactly once, grouped by kind in the order Scalars,
Objects, Enums, Inputs, each kind in the stable schema order; the
handlers registered by Generate render one section per type and abort on
the first failing template. -/
def schemaVisit (tpl : Templates) (isModuleCode : Bool) (schema : Schema) :
    Except String (List String) :=
  match mapRender tpl.scalarTpl schema.scalars with
  | Except.error e => Except.error e
  | Except.ok a =>
    match mapRender (fun t => tpl.objectTpl t isModuleCode) schema.objects with
    | Except.error e => Except.error e
    | Except.ok b =>
      match mapRender tpl.enumTpl schema.enums with
      | Except.error e => Except.error e
      | Except.ok c =>
        match mapRender tpl.inputTpl schema.inputs with
        | Except.error e => Except.error e
        | Except.ok d => Except.ok (a ++ b ++ c ++ d)

/-- The section list Generate assembles (generator.go lines 59 to 125):
header first, then the visited sections, then, exactly when a module
name is configured, the module entry point section; the object sections
are rendered with IsModuleCode true exactly when a module name is
configured. -/
def renderSections (tpl : Templates) (moduleName sourceDirPath : String)
    (pkgInfo : PackageInfo) (schema : Schema) : Except String (List String) :=
  match tpl.headerTpl pkgInfo schema with
  | Except.error e => Except.error e
  | Except.ok header =>
    match schemaVisit tpl (moduleName != "") schema with
    | Except.error e => Except.error e
    | Except.ok body =>
      if moduleName != "" then
        match tpl.moduleTpl schema sourceDirPath with
        | Except.error e => Except.error e
        | Except.ok m => Except.ok (header :: body ++ [m])
      else Except.ok (header :: body)

/-- Embedding of strings.Join as called on the render list. -/
def goJoin (sep : String) : List String → String
  | [] => ""
  | [s] => s
  | s :: rest => s ++ sep ++ goJoin sep rest

/-- Modelled from the spec: the external canonicalizers (go format and
the imports processor) are pure fallible functions over the rendered
text. -/
structure PostProc where
  formatSource : String → Except String String
  importsProcess : String → Except String String

/-- Rendering and canonicalization in Generate (lines 59 to 135): build
the sections, join them with a newline, then format and resolve imports;
each canonicalizer failure carries the joined source in the error. -/
def renderArtifact (tpl : Templates) (post : PostProc) (moduleName sourceDirPath : String)
    (pkgInfo : PackageInfo) (schema : Schema) : Except GenError String :=
  match renderSections tpl moduleName sourceDirPath pkgInfo schema with
  | Except.error e => Except.error (GenError.template e)
  | Except.ok render =>
    let source := goJoin ("\n") render
    match post.formatSource source with
    | Except.error _ => Except.error (GenError.formatting source)
    | Except.ok formatted =>
      match post.importsProcess formatted with
      | Except.error _ => Except.error (GenError.importsProcessing source)
      | Except.ok formatted2 => Except.ok formatted2

/-- The marker line flagging one generated file. -/
def gitAttributesEntry (fileName : String) : String :=
  fileName ++ " linguist-generated=true"

/-- Modelled from the spec: generator.InstallGitAttributes (missing from
src) ensures a marker entry for the generated file without overwriting a
user customized marker file that already lists it. -/
def installGitAttributes (mfs : FS) (fileName : String) (outDir : FS) : FS :=
  match outDir.lookup (".gitattributes") with
  | some (FileContent.raw existing) =>
    if (existing.splitOn (gitAttributesEntry fileName)).length ≥ 2 then mfs
    else mfs.write (".gitattributes")
      (FileContent.raw (existing ++ "\n" ++ gitAttributesEntry fileName ++ "\n"))
  | some _ => mfs
  | none =>
    mfs.write (".gitattributes") (FileContent.raw (gitAttributesEntry fileName ++ "\n"))

/-- The fixed second layer of the returned overlay: the query builder
sources embedded in the SDK (dagger.QueryBuilder in the source),
abstracted as a constant directory. -/
def queryBuilderFS : FS :=
  ⟨[("internal/querybuilder/querybuilder.go",
      FileContent.goSrc ("querybuilder") ("embedded SDK query builder source"))]⟩

/-- The layered overlay carried by the result: the in memory generated
layer consulted first, then the fixed embedded layer. -/
structure GenOverlay where
  top : FS
  base : FS
deriving DecidableEq, Repr

/-- Embedding of generator.GeneratedState as Generate builds it. -/
structure GeneratedState where
  overlay : GenOverlay
  postCommands : List (List String)
  needRegenerate : Bool
deriving DecidableEq, Repr

/-- Embedding of generator.Config as used by the Go generator: the module
name, the source directory path passed to templates, and the contents of
the output and source directories. -/
structure GenConfig where
  moduleName : String
  sourceDirPath : String
  outDir : FS
  sourceDir : FS
deriving DecidableEq, Repr

/-- Embedding of GoGenerator.Generate (generator.go lines 34 to 153):
bootstrap the package (any failure aborts), load the source package with
the error swallowed as in the source, render and canonicalize all
sections (any failure aborts before the generated file is written), write
the generated file and the marker into the in memory layer, and return
the overlay over the embedded query builder layer together with the
fixed post command list and the needsRegen flag. -/
def Generate (tpl : Templates) (post : PostProc) (sdkRequire : List Require)
    (schema : Schema) (cfg : GenConfig) : Except GenError GeneratedState :=
  match bootstrapPkg cfg.moduleName cfg.outDir ⟨[]⟩ sdkRequire with
  | Except.error e => Except.error e
  | Except.ok (pkgInfo, needSync, mfs) =>
    let _pkg := loadPackage cfg.sourceDir
    match renderArtifact tpl post cfg.moduleName cfg.sourceDirPath pkgInfo schema with
    | Except.error e => Except.error e
    | Except.ok formatted =>
      let mfs1 := mfs.write ClientGenFile (FileContent.raw formatted)
      let mfs2 := installGitAttributes mfs1 ClientGenFile cfg.outDir
      Except.ok
        { overlay := ⟨mfs2, queryBuilderFS⟩
          postCommands := [["go", "mod", "tidy"]]
          needRegenerate := needSync }

/-- Decidable equality on Except values, used to evaluate the model on
concrete inputs. -/
instance {ε α : Type} [DecidableEq ε] [DecidableEq α] : DecidableEq (Except ε α) := fun a b =>
  match a, b with
  | Except.error e, Except.error f =>
    if h : e = f then isTrue (by simp [h]) else isFalse (by simp [h])
  | Except.error _, Except.ok _ => isFalse (by simp)
  | Except.ok _, Except.error _ => isFalse (by simp)
  | Except.ok x, Except.ok y =>
    if h : x = y then isTrue (by simp [h]) else isFalse (by simp [h])

/-! Concrete fixtures used by witnesses and counterexamples. -/

/-- A concrete baseline require list standing for the embedded SDK
go.mod. -/
def sdkEx : List Require :=
  [⟨"dagger.io/dagger", "v0.8.4"⟩, ⟨"github.com/Khan/genqlient", "v0.6.0"⟩]

/-- A concrete small schema. -/
def schEx : Schema :=
  ⟨[⟨"JSON"⟩], [⟨"Container"⟩], [⟨"NetworkProtocol"⟩], [⟨"BuildArg"⟩]⟩

/-- Concrete templates that always render. -/
def okTemplates : Templates :=
  { headerTpl := fun info _ => Except.ok ("package " ++ info.PackageName ++ "\n")
    scalarTpl := fun t => Except.ok ("scalar " ++ t.name ++ "\n")
    objectTpl := fun t b => Except.ok ("object " ++ t.name ++ (if b then " module" else "") ++ "\n")
    enumTpl := fun t => Except.ok ("enum " ++ t.name ++ "\n")
    inputTpl := fun t => Except.ok ("input " ++ t.name ++ "\n")
    moduleTpl := fun _ p => Except.ok ("module entry " ++ p ++ "\n") }

/-- Concrete canonicalizers that accept any text unchanged. -/
def idPost : PostProc := ⟨fun s => Except.ok s, fun s => Except.ok s⟩

/-- A fresh, empty workspace configured with module name cool. -/
def cfgFresh : GenConfig := ⟨"cool", ".", ⟨[]⟩, ⟨[]⟩⟩

/-- An output directory holding two Go packages, which makes the probe
ambiguous. -/
def ambFS : FS :=
  ⟨[("a.go", FileContent.goSrc ("alpha") ("package alpha")),
    ("b.go", FileContent.goSrc ("beta") ("package beta"))]⟩

/-- The ambiguous workspace as a configuration. -/
def cfgAmb : GenConfig := ⟨"mod", ".", ambFS, ambFS⟩

example : (Generate okTemplates idPost sdkEx schEx cfgFresh).map
    (fun st => st.needRegenerate) = Except.ok true := by decide
example : loadPackage ambFS = Except.error (LoadErr.ambiguous 2) := by decide
example : (Generate okTemplates idPost sdkEx schEx cfgAmb).map
    (fun st => st.needRegenerate) = Except.ok true := by decide

/-! Helper lemmas about find?, filter, the manifest operations and the
file system model. -/

theorem find?_cons_true {α : Type} (p : α → Bool) (a : α) (l : List α) (h : p a = true) :
    (a :: l).find? p = some a := by
  simp [List.find?_cons, h]

theorem find?_cons_false {α : Type} (p : α → Bool) (a : α) (l : List α) (h : p a = false) :
    (a :: l).find? p = l.find? p := by
  simp [List.find?_cons, h]

theorem find?_append_some {α : Type} (p : α → Bool) (l1 l2 : List α) (a : α)
    (h : l1.find? p = some a) : (l1 ++ l2).find? p = some a := by
  rw [List.find?_append, h]
  rfl

theorem find?_append_none {α : Type} (p : α → Bool) (l1 l2 : List α)
    (h : l1.find? p = none) : (l1 ++ l2).find? p = l2.find? p := by
  rw [List.find?_append, h]
  cases l2.find? p <;> rfl

theorem find?_filter_of_imp {α : Type} (p q : α → Bool) (l : List α)
    (h : ∀ e, p e = true → q e = true) :
    (l.filter q).find? p = l.find? p := by
  induction l with
  | nil => rfl
  | cons b t ih =>
    rw [List.filter_cons]
    by_cases hq : q b = true
    · rw [if_pos hq]
      by_cases hp : p b = true
      · rw [List.find?_cons_of_pos _ hp, List.find?_cons_of_pos _ hp]
      · rw [List.find?_cons_of_neg _ hp, List.find?_cons_of_neg _ hp]
        exact ih
    · have hp : ¬ p b = true := fun hp => hq (h b hp)
      rw [if_neg hq, List.find?_cons_of_neg _ hp]
      exact ih

theorem addRequire_modulePath (m : ModFile) (p v : String) :
    (m.addRequire p v).modulePath = m.modulePath := by
  unfold ModFile.addRequire
  split <;> rfl

theorem addRequireUpdate_find_ne (l : List Require) (p v q : String) (h : q ≠ p) :
    (addRequireUpdate l p v).find? (fun r => r.path == q)
      = l.find? (fun r => r.path == q) := by
  induction l with
  | nil => rfl
  | cons r rs ih =>
    unfold addRequireUpdate
    by_cases hr : (r.path == p) = true
    · have hrp : r.path = p := by simpa using hr
      have h1 : ((⟨p, v⟩ : Require).path == q) = false := by
        simp only [beq_eq_false_iff_ne, ne_eq]
        exact fun hpq => h hpq.symm
      have h2 : (r.path == q) = false := by
        simp only [beq_eq_false_iff_ne, ne_eq, hrp]
        exact fun hpq => h hpq.symm
      rw [if_pos hr, find?_cons_false (fun (x : Require) => x.path == q) _ _ h1,
        find?_cons_false (fun (x : Require) => x.path == q) _ _ h2]
      exact find?_filter_of_imp _ _ rs (by
        intro e he
        have heq : e.path = q := by simpa using he
        simp only [heq, bne_iff_ne, ne_eq]
        exact h)
    · rw [if_neg hr]
      rcases Bool.eq_false_or_eq_true (r.path == q) with hq | hq
      · rw [find?_cons_true (fun (x : Require) => x.path == q) _ _ hq,
          find?_cons_true (fun (x : Require) => x.path == q) _ _ hq]
      · rw [find?_cons_false (fun (x : Require) => x.path == q) _ _ hq,
          find?_cons_false (fun (x : Require) => x.path == q) _ _ hq]
        exact ih

theorem lookupVersion_addRequire_ne (m : ModFile) (p v q : String) (h : q ≠ p) :
    (m.addRequire p v).lookupVersion q = m.lookupVersion q := by
  have hpq : ((⟨p, v⟩ : Require).path == q) = false := by
    simp only [beq_eq_false_iff_ne, ne_eq]
    exact fun hh => h hh.symm
  unfold ModFile.addRequire ModFile.lookupVersion
  split
  · simp only
    rw [addRequireUpdate_find_ne _ _ _ _ h]
  · simp only
    rw [List.find?_append, find?_cons_false (fun (x : Require) => x.path == q) _ _ hpq,
      List.find?_nil]
    cases m.require.find? (fun r => r.path == q) <;> rfl

theorem any_false_find?_none (l : List Require) (p : String)
    (h : l.any (fun r => r.path == p) = false) :
    l.find? (fun r => r.path == p) = none := by
  induction l with
  | nil => rfl
  | cons r rs ih =>
    simp only [List.any_cons, Bool.or_eq_false_iff] at h
    rw [find?_cons_false (fun (x : Require) => x.path == p) _ _ h.1]
    exact ih h.2

theorem addRequireUpdate_find_self (l : List Require) (p v : String)
    (h : l.any (fun r => r.path == p) = true) :
    (addRequireUpdate l p v).find? (fun r => r.path == p) = some ⟨p, v⟩ := by
  induction l with
  | nil => simp at h
  | cons r rs ih =>
    unfold addRequireUpdate
    by_cases hr : (r.path == p) = true
    · rw [if_pos hr, find?_cons_true (fun (x : Require) => x.path == p) _ _ (by simp)]
    · have hr' : (r.path == p) = false := by simpa using hr
      rw [if_neg hr, find?_cons_false (fun (x : Require) => x.path == p) _ _ hr']
      simp only [List.any_cons] at h
      rcases Bool.or_eq_true_iff.mp h with h1 | h1
      · exact absurd h1 hr
      · exact ih h1

theorem lookupVersion_addRequire_self (m : ModFile) (p v : String) :
    (m.addRequire p v).lookupVersion p = some v := by
  unfold ModFile.addRequire ModFile.lookupVersion
  split
  · next hany =>
    simp only
    rw [addRequireUpdate_find_self _ _ _ hany]
    rfl
  · next hany =>
    have hf := any_false_find?_none m.require p (by simpa using hany)
    simp only
    rw [List.find?_append, hf, List.find?_cons_of_pos _ (by simp)]
    rfl

theorem mem_addRequireUpdate_of_ne (l : List Require) (p v : String) (r : Require)
    (hne : r.path ≠ p) (hmem : r ∈ l) : r ∈ addRequireUpdate l p v := by
  induction l with
  | nil => simp at hmem
  | cons a t ih =>
    unfold addRequireUpdate
    by_cases ha : (a.path == p) = true
    · have hap : a.path = p := by simpa using ha
      rw [if_pos ha]
      rcases List.mem_cons.mp hmem with h1 | h1
      · exact absurd (h1 ▸ hap) hne
      · exact List.mem_cons_of_mem _ (List.mem_filter.mpr ⟨h1, by simpa using hne⟩)
    · rw [if_neg ha]
      rcases List.mem_cons.mp hmem with h1 | h1
      · exact h1 ▸ List.mem_cons_self _ _
      · exact List.mem_cons_of_mem _ (ih h1)

theorem mem_addRequire_of_ne (m : ModFile) (p v : String) (r : Require)
    (hne : r.path ≠ p) (hmem : r ∈ m.require) : r ∈ (m.addRequire p v).require := by
  unfold ModFile.addRequire
  split
  · exact mem_addRequireUpdate_of_ne _ _ _ _ hne hmem
  · exact List.mem_append_left _ hmem

theorem reconcile_modulePath (cur : ModFile) (sdk : List Require) :
    (reconcileRequirements cur sdk).modulePath = cur.modulePath := by
  induction sdk generalizing cur with
  | nil => rfl
  | cons r rest ih =>
    unfold reconcileRequirements at ih ⊢
    simp only [List.foldl_cons]
    rw [ih]
    exact addRequire_modulePath cur r.path r.version

theorem reconcile_lookup_notin (cur : ModFile) (sdk : List Require) (q : String)
    (h : q ∉ sdk.map Require.path) :
    (reconcileRequirements cur sdk).lookupVersion q = cur.lookupVersion q := by
  induction sdk generalizing cur with
  | nil => rfl
  | cons r rest ih =>
    simp only [List.map_cons, List.mem_cons, not_or] at h
    unfold reconcileRequirements at ih ⊢
    simp only [List.foldl_cons]
    rw [ih _ h.2]
    exact lookupVersion_addRequire_ne cur r.path r.version q h.1

theorem reconcile_lookup_mem (cur : ModFile) (sdk : List Require) (r : Require)
    (hnodup : (sdk.map Require.path).Nodup) (hmem : r ∈ sdk) :
    (reconcileRequirements cur sdk).lookupVersion r.path = some r.version := by
  induction sdk generalizing cur with
  | nil => simp at hmem
  | cons a rest ih =>
    simp only [List.map_cons, List.nodup_cons] at hnodup
    unfold reconcileRequirements at ih ⊢
    simp only [List.foldl_cons]
    rcases List.mem_cons.mp hmem with h1 | h1
    · subst h1
      rw [show List.foldl (fun m r => m.addRequire r.path r.version)
          (cur.addRequire r.path r.version) rest
          = reconcileRequirements (cur.addRequire r.path r.version) rest from rfl]
      rw [reconcile_lookup_notin _ _ _ hnodup.1]
      exact lookupVersion_addRequire_self cur r.path r.version
    · exact ih _ hnodup.2 h1

theorem reconcile_mem_preserved (cur : ModFile) (sdk : List Require) (r : Require)
    (h : r.path ∉ sdk.map Require.path) (hmem : r ∈ cur.require) :
    r ∈ (reconcileRequirements cur sdk).require := by
  induction sdk generalizing cur with
  | nil => exact hmem
  | cons a rest ih =>
    simp only [List.map_cons, List.mem_cons, not_or] at h
    unfold reconcileRequirements at ih ⊢
    simp only [List.foldl_cons]
    exact ih _ h.2 (mem_addRequire_of_ne cur a.path a.version r h.1 hmem)

theorem FS.lookup_write (fs : FS) (n : String) (c : FileContent) (m : String) :
    (fs.write n c).lookup m = if m = n then some c else fs.lookup m := by
  unfold FS.write FS.lookup
  by_cases h : m = n
  · subst h
    rw [if_pos rfl]
    simp only
    rw [List.find?_cons_of_pos _ (by simp)]
    rfl
  · rw [if_neg h]
    simp only
    rw [List.find?_cons_of_neg _ (by simp only [beq_iff_eq]; exact fun hh => h hh.symm)]
    have himp : ∀ e : String × FileContent, (e.1 == m) = true → (e.1 != n) = true := by
      intro e he
      have he1 : e.1 = m := by simpa using he
      simp only [he1, bne_iff_ne, ne_eq]
      exact h
    rw [find?_filter_of_imp _ _ _ himp]

theorem FS.lookup_applyLayer (base layer : FS) (n : String) :
    (base.applyLayer layer).lookup n
      = match layer.lookup n with
        | some c => some c
        | none => base.lookup n := by
  cases hl : layer.lookup n with
  | some c =>
    have hf : ∃ e, layer.files.find? (fun e => e.1 == n) = some e ∧ e.2 = c := by
      unfold FS.lookup at hl
      rcases Option.map_eq_some'.mp hl with ⟨e, he, hec⟩
      exact ⟨e, he, hec⟩
    rcases hf with ⟨e, he, hec⟩
    show ((layer.files
        ++ base.files.filter (fun e => (layer.lookup e.1).isNone)).find?
          (fun e => e.1 == n)).map (fun e => e.2) = some c
    rw [find?_append_some _ _ _ _ he]
    simp [hec]
  | none =>
    have hf : layer.files.find? (fun e => e.1 == n) = none := by
      unfold FS.lookup at hl
      exact Option.map_eq_none'.mp hl
    have himp : ∀ e : String × FileContent,
        (e.1 == n) = true → (layer.lookup e.1).isNone = true := by
      intro e he
      have hen : e.1 = n := by simpa using he
      rw [hen, hl]
      rfl
    show ((layer.files
        ++ base.files.filter (fun e => (layer.lookup e.1).isNone)).find?
          (fun e => e.1 == n)).map (fun e => e.2) = base.lookup n
    rw [find?_append_none _ _ _ hf]
    rw [find?_filter_of_imp _ _ _ himp]
    rfl

theorem installGitAttributes_lookup_ne (mfs : FS) (f : String) (outDir : FS)
    (name : String) (h : name ≠ ".gitattributes") :
    (installGitAttributes mfs f outDir).lookup name = mfs.lookup name := by
  unfold installGitAttributes
  split
  · split
    · rfl
    · rw [FS.lookup_write, if_neg h]
  · rfl
  · rw [FS.lookup_write, if_neg h]

theorem resolveGoMod_modulePath (m : String) (outDir : FS) (sdk : List Require)
    (nm : ModFile) (mp : String)
    (h : resolveGoMod m outDir sdk = Except.ok (nm, mp)) : nm.modulePath = mp := by
  unfold resolveGoMod at h
  split at h
  · next cur _ =>
    simp only [Except.ok.injEq, Prod.mk.injEq] at h
    rw [← h.1, ← h.2]
    exact reconcile_modulePath _ _
  · exact absurd h (by simp)
  · simp only [Except.ok.injEq, Prod.mk.injEq] at h
    rw [← h.1, ← h.2]
    rfl

theorem mapRender_ok {α : Type} (f : α → Except String String) (g : α → String)
    (l : List α) (h : ∀ t ∈ l, f t = Except.ok (g t)) :
    mapRender f l = Except.ok (l.map g) := by
  induction l with
  | nil => rfl
  | cons a t ih =>
    unfold mapRender
    rw [h a (List.mem_cons_self a t), ih (fun x hx => h x (List.mem_cons_of_mem a hx))]
    rfl

/-- A concrete manifest with an unrelated pinned dependency and a stale
pin of a baseline path. -/
def curEx : ModFile :=
  ⟨"my-mod", [⟨"example.com/unrelated", "v1.2.3"⟩, ⟨"dagger.io/dagger", "v0.0.1"⟩]⟩

/-- An output directory already holding that manifest. -/
def outModFS : FS := ⟨[("go.mod", FileContent.goMod (some curEx))]⟩

/-- C1: for a dependency manifest already existing at the output
directory, reconciliation preserves the declared module identity
verbatim, keeps every pre-existing requirement whose path is outside the
baseline with its path and version unchanged, and afterwards every
baseline path is present at the baseline version, by upsert on the
path. -/
theorem claimC1 (m : String) (outDir : FS) (cur : ModFile) (sdk : List Require)
    (hm : outDir.lookup ("go.mod") = some (FileContent.goMod (some cur)))
    (hnodup : (sdk.map Require.path).Nodup) :
    resolveGoMod m outDir sdk
        = Except.ok (reconcileRequirements cur sdk, cur.modulePath)
      ∧ (reconcileRequirements cur sdk).modulePath = cur.modulePath
      ∧ (∀ r ∈ cur.require, r.path ∉ sdk.map Require.path →
          r ∈ (reconcileRequirements cur sdk).require)
      ∧ (∀ q, q ∉ sdk.map Require.path →
          (reconcileRequirements cur sdk).lookupVersion q = cur.lookupVersion q)
      ∧ (∀ r ∈ sdk,
          (reconcileRequirements cur sdk).lookupVersion r.path = some r.version) := by
  refine ⟨?_, reconcile_modulePath cur sdk, ?_, ?_, ?_⟩
  · unfold resolveGoMod
    rw [hm]
  · intro r hr hnot
    exact reconcile_mem_preserved cur sdk r hnot hr
  · intro q hq
    exact reconcile_lookup_notin cur sdk q hq
  · intro r hr
    exact reconcile_lookup_mem cur sdk r hnodup hr

/-- Witness for C1: a concrete manifest keeps its unrelated dependency
and its module path while the stale baseline pin is moved to the
baseline version. -/
theorem claimC1_witness :
    resolveGoMod ("mod") outModFS sdkEx
        = Except.ok (reconcileRequirements curEx sdkEx, "my-mod")
      ∧ (reconcileRequirements curEx sdkEx).lookupVersion ("example.com/unrelated")
        = some ("v1.2.3")
      ∧ (reconcileRequirements curEx sdkEx).lookupVersion ("dagger.io/dagger")
        = some ("v0.8.4") := by
  have h := claimC1 ("mod") outModFS curEx sdkEx (by decide) (by decide)
  refine ⟨h.1, ?_, ?_⟩
  · exact (h.2.2.2.1 ("example.com/unrelated") (by decide)).trans (by decide)
  · exact (h.2.2.2.2 ⟨"dagger.io/dagger", "v0.8.4"⟩ (by decide))

/-- C6: when every rendered section carries exactly one trailing newline,
joining the section list with a newline, as Generate does through
strings.Join, separates each pair of consecutive sections by a single
blank line: the join equals the section bodies interleaved with a double
newline plus the final trailing newline. -/
theorem claimC6 (bodies : List String) (h : bodies ≠ []) :
    goJoin ("\n") (bodies.map (fun b => b ++ "\n"))
      = goJoin ("\n\n") bodies ++ "\n" := by
  have hnn : ("\n" : String) ++ "\n" = "\n\n" := by decide
  induction bodies with
  | nil => exact absurd rfl h
  | cons b t ih =>
    cases t with
    | nil => rfl
    | cons c u =>
      have ih2 := ih (by simp)
      show (b ++ "\n") ++ "\n" ++ goJoin ("\n") ((c :: u).map (fun b => b ++ "\n"))
        = (b ++ "\n\n" ++ goJoin ("\n\n") (c :: u)) ++ "\n"
      rw [ih2]
      simp only [← hnn, String.append_assoc]

/-- Witness for C6 on a two section render list. -/
theorem claimC6_witness :
    goJoin ("\n") (["alpha", "beta"].map (fun b => b ++ "\n"))
      = goJoin ("\n\n") ["alpha", "beta"] ++ "\n" :=
  claimC6 ["alpha", "beta"] (by decide)

/-- C4: when every needed template renders, the section list is exactly
one header section, then one section per Scalar, one per Object, one per
Enum and one per Input, each kind in the schema visitation order, then
exactly one module entry point section when and only when a module name
is configured; each Object section receives the module code flag true
exactly when a module name is configured, and the schema derived
sections number exactly the sum of the four kind counts. -/
theorem claimC4 (tpl : Templates) (mn sdp : String) (info : PackageInfo) (schema : Schema)
    (fH : String) (fS fE fI : SchemaType → String) (fO : SchemaType → Bool → String)
    (fM : String)
    (hH : tpl.headerTpl info schema = Except.ok fH)
    (hS : ∀ t ∈ schema.scalars, tpl.scalarTpl t = Except.ok (fS t))
    (hO : ∀ t ∈ schema.objects, ∀ b, tpl.objectTpl t b = Except.ok (fO t b))
    (hE : ∀ t ∈ schema.enums, tpl.enumTpl t = Except.ok (fE t))
    (hI : ∀ t ∈ schema.inputs, tpl.inputTpl t = Except.ok (fI t))
    (hM : mn ≠ "" → tpl.moduleTpl schema sdp = Except.ok fM) :
    renderSections tpl mn sdp info schema
      = Except.ok (fH :: (schema.scalars.map fS
          ++ schema.objects.map (fun t => fO t (mn != ""))
          ++ schema.enums.map fE ++ schema.inputs.map fI)
          ++ (if mn != "" then [fM] else []))
    ∧ (schema.scalars.map fS ++ schema.objects.map (fun t => fO t (mn != ""))
        ++ schema.enums.map fE ++ schema.inputs.map fI).length
      = schema.scalars.length + schema.objects.length
        + schema.enums.length + schema.inputs.length := by
  have hvisit : schemaVisit tpl (mn != "") schema
      = Except.ok (schema.scalars.map fS
          ++ schema.objects.map (fun t => fO t (mn != ""))
          ++ schema.enums.map fE ++ schema.inputs.map fI) := by
    unfold schemaVisit
    rw [mapRender_ok tpl.scalarTpl fS _ hS,
      mapRender_ok (fun t => tpl.objectTpl t (mn != "")) (fun t => fO t (mn != "")) _
        (fun t ht => hO t ht (mn != "")),
      mapRender_ok tpl.enumTpl fE _ hE,
      mapRender_ok tpl.inputTpl fI _ hI]
  constructor
  · unfold renderSections
    rw [hH, hvisit]
    by_cases hmn : mn = ""
    · subst hmn
      simp
    · have hb : (mn != "") = true := by simpa using hmn
      rw [hM hmn]
      simp [hb]
  · simp [Nat.add_assoc]

/-- Witness for C4 at a concrete schema with one type of each kind and a
configured module name. -/
theorem claimC4_witness :
    renderSections okTemplates ("cool") (".") ⟨"main", "cool"⟩ schEx
      = Except.ok ["package main\n", "scalar JSON\n", "object Container module\n",
          "enum NetworkProtocol\n", "input BuildArg\n", "module entry .\n"] :=
  ((claimC4 okTemplates ("cool") (".") ⟨"main", "cool"⟩ schEx
      ("package main\n") (fun t => "scalar " ++ t.name ++ "\n")
      (fun t => "enum " ++ t.name ++ "\n") (fun t => "input " ++ t.name ++ "\n")
      (fun t b => "object " ++ t.name ++ (if b then " module" else "") ++ "\n")
      ("module entry .\n")
      (by decide) (fun t _ => rfl) (fun t _ b => rfl) (fun t _ => rfl) (fun t _ => rfl)
      (fun _ => rfl)).1).trans (by decide)

/-- C3 counterexample: at a workspace holding two Go packages the probe
fails with the ambiguity error, yet generation does not fail: the
bootstrap succeeds with the default package name main substituted and
the whole Generate call completes, refuting the claim that every probe
failure other than not found propagates as a fatal error out of
generation. -/
theorem claimC3_cex :
    loadPackage ambFS = Except.error (LoadErr.ambiguous 2)
    ∧ (bootstrapPkg ("mod") ambFS ⟨[]⟩ sdkEx).map (fun x => x.1.PackageName)
      = Except.ok ("main")
    ∧ (Generate okTemplates idPost sdkEx schEx cfgAmb).map
        (fun st => st.needRegenerate) = Except.ok true :=
  ⟨by decide, by decide, by decide⟩

/-- C3 amended: every loadPackage failure during workspace probing, not
found, ambiguity and any other failure alike, is handled by substituting
the default package name main, and a successful bootstrap always carries
the probe result; no probe failure propagates out of generation. -/
theorem claimC3_amended (m : String) (outDir mfs0 : FS) (sdk : List Require) (e : LoadErr)
    (h : loadPackage outDir = Except.error e) :
    probePackageName outDir = "main"
    ∧ ∀ info ns mfs2, bootstrapPkg m outDir mfs0 sdk = Except.ok (info, ns, mfs2) →
        info.PackageName = "main" := by
  have hp : probePackageName outDir = "main" := by
    unfold probePackageName
    rw [h]
  refine ⟨hp, ?_⟩
  intro info ns mfs2 hb
  rcases hs : scaffoldStarter m outDir mfs0 with ⟨mfs1, nsb⟩
  unfold bootstrapPkg at hb
  rw [hs] at hb
  cases hg : resolveGoMod m outDir sdk with
  | error e2 =>
    rw [hg] at hb
    exact absurd hb (by simp)
  | ok pr =>
    rcases pr with ⟨newMod, mp⟩
    rw [hg] at hb
    simp only [Except.ok.injEq, Prod.mk.injEq] at hb
    rw [← hb.1]
    exact hp

/-- Witness for the amended C3 at the ambiguous workspace and at an empty
workspace. -/
theorem claimC3_amended_witness :
    probePackageName ambFS = "main" ∧ probePackageName ⟨[]⟩ = "main" :=
  ⟨(claimC3_amended ("mod") ambFS ⟨[]⟩ sdkEx (LoadErr.ambiguous 2) (by decide)).1,
   (claimC3_amended ("mod") ⟨[]⟩ ⟨[]⟩ sdkEx LoadErr.notFound (by decide)).1⟩

theorem bootstrapPkg_inv (m : String) (outDir mfs0 : FS) (sdk : List Require)
    (info : PackageInfo) (ns : Bool) (mfs : FS)
    (hb : bootstrapPkg m outDir mfs0 sdk = Except.ok (info, ns, mfs)) :
    info.PackageName = probePackageName outDir
    ∧ ns = (outDir.lookup StarterTemplateFile).isNone
    ∧ (∃ newMod, resolveGoMod m outDir sdk = Except.ok (newMod, info.ModulePath)
        ∧ mfs.lookup ("go.mod") = some (FileContent.goMod (some newMod))
        ∧ mfs.lookup ("go.sum") = some (FileContent.raw daggerGoSum))
    ∧ mfs.lookup StarterTemplateFile
      = (if (outDir.lookup StarterTemplateFile).isNone
          then some (FileContent.goSrc ("main") (baseModuleSource m))
          else mfs0.lookup StarterTemplateFile) := by
  rcases hs : scaffoldStarter m outDir mfs0 with ⟨mfs1, nsb⟩
  unfold bootstrapPkg at hb
  rw [hs] at hb
  cases hg : resolveGoMod m outDir sdk with
  | error e2 =>
    rw [hg] at hb
    exact absurd hb (by simp)
  | ok pr =>
    rcases pr with ⟨newMod, mp⟩
    rw [hg] at hb
    simp only [Except.ok.injEq, Prod.mk.injEq] at hb
    rcases hb with ⟨hinfo, hns, hmfs⟩
    have hstarter : mfs1.lookup StarterTemplateFile
          = (if (outDir.lookup StarterTemplateFile).isNone
              then some (FileContent.goSrc ("main") (baseModuleSource m))
              else mfs0.lookup StarterTemplateFile)
        ∧ nsb = (outDir.lookup StarterTemplateFile).isNone := by
      unfold scaffoldStarter at hs
      by_cases hc : (outDir.lookup StarterTemplateFile).isSome = true
      · rw [if_pos hc] at hs
        have hcn : (outDir.lookup StarterTemplateFile).isNone = false := by
          cases hv : outDir.lookup StarterTemplateFile with
          | none => rw [hv] at hc; simp at hc
          | some c => rfl
        simp only [Prod.mk.injEq] at hs
        rw [hcn, if_neg (by simp), ← hs.1, ← hs.2]
        exact ⟨rfl, rfl⟩
      · rw [if_neg hc] at hs
        have hcn : (outDir.lookup StarterTemplateFile).isNone = true := by
          cases hv : outDir.lookup StarterTemplateFile with
          | none => rfl
          | some c => rw [hv] at hc; simp at hc
        simp only [Prod.mk.injEq] at hs
        rw [hcn, if_pos rfl, ← hs.1, ← hs.2]
        refine ⟨?_, rfl⟩
        rw [FS.lookup_write, if_pos rfl]
    subst hinfo
    subst hns
    subst hmfs
    refine ⟨rfl, hstarter.2, ⟨newMod, ?_, ?_, ?_⟩, ?_⟩
    · rfl
    · rw [FS.lookup_write, if_neg (by decide), FS.lookup_write, if_pos rfl]
    · rw [FS.lookup_write, if_pos rfl]
    · rw [FS.lookup_write, if_neg (by decide), FS.lookup_write, if_neg (by decide)]
      exact hstarter.1

theorem Generate_eq (tpl : Templates) (post : PostProc) (sdk : List Require)
    (schema : Schema) (cfg : GenConfig) (info : PackageInfo) (ns : Bool) (mfs : FS)
    (f : String)
    (hb : bootstrapPkg cfg.moduleName cfg.outDir ⟨[]⟩ sdk = Except.ok (info, ns, mfs))
    (hr : renderArtifact tpl post cfg.moduleName cfg.sourceDirPath info schema
      = Except.ok f) :
    Generate tpl post sdk schema cfg = Except.ok
      { overlay := ⟨installGitAttributes (mfs.write ClientGenFile (FileContent.raw f))
          ClientGenFile cfg.outDir, queryBuilderFS⟩
        postCommands := [["go", "mod", "tidy"]]
        needRegenerate := ns } := by
  unfold Generate
  rw [hb]
  dsimp only
  rw [hr]

/-- C7: a section template failing to render aborts Generate with the
template error before any artifact is produced: the call returns the
error, so no generated state, no overlay and no generated file exist,
and the embedding never touches the real workspace at all. -/
theorem claimC7 (tpl : Templates) (post : PostProc) (sdk : List Require)
    (schema : Schema) (cfg : GenConfig) (info : PackageInfo) (ns : Bool) (mfs : FS)
    (e : String)
    (hboot : bootstrapPkg cfg.moduleName cfg.outDir ⟨[]⟩ sdk = Except.ok (info, ns, mfs))
    (hfail : renderSections tpl cfg.moduleName cfg.sourceDirPath info schema
      = Except.error e) :
    Generate tpl post sdk schema cfg = Except.error (GenError.template e)
    ∧ ∀ st, Generate tpl post sdk schema cfg ≠ Except.ok st := by
  have hgen : Generate tpl post sdk schema cfg = Except.error (GenError.template e) := by
    unfold Generate
    rw [hboot]
    dsimp only
    unfold renderArtifact
    rw [hfail]
  exact ⟨hgen, fun st hst => by rw [hgen] at hst; exact absurd hst (by simp)⟩

/-- Templates that always fail on Scalar sections. -/
def failTemplates : Templates :=
  { okTemplates with scalarTpl := fun _ => Except.error ("scalar template failed") }

/-- The in memory layer bootstrap builds for the fresh workspace. -/
def mfsFresh : FS :=
  (((FS.mk []).write StarterTemplateFile
      (FileContent.goSrc ("main") (baseModuleSource ("cool")))).write ("go.mod")
      (FileContent.goMod (some ⟨"cool", sdkEx⟩))).write ("go.sum")
      (FileContent.raw daggerGoSum)

set_option maxRecDepth 8192 in
/-- Witness for C7: with a failing Scalar template, Generate on the fresh
workspace returns exactly the template error. -/
theorem claimC7_witness :
    Generate failTemplates idPost sdkEx schEx cfgFresh
      = Except.error (GenError.template ("scalar template failed")) :=
  (claimC7 failTemplates idPost sdkEx schEx cfgFresh ⟨"main", "cool"⟩ true mfsFresh
    ("scalar template failed") (by decide) (by decide)).1

/-- C2: in one Generate call, when the canonical starter file is absent
from the output directory a scaffold starter is written into the virtual
overlay layer and the needs regenerate flag is true, and when the file
already exists no scaffold write occurs and the flag is false; the
embedding reads the real workspace only, so no real file is ever
touched. -/
theorem claimC2 (tpl : Templates) (post : PostProc) (sdk : List Require)
    (schema : Schema) (cfg : GenConfig) :
    (cfg.outDir.lookup StarterTemplateFile = none →
      (Generate tpl post sdk schema cfg).map
          (fun st => (st.needRegenerate, st.overlay.top.lookup StarterTemplateFile))
        = (Generate tpl post sdk schema cfg).map
          (fun _ => (true,
            some (FileContent.goSrc ("main") (baseModuleSource cfg.moduleName)))))
    ∧ ((cfg.outDir.lookup StarterTemplateFile).isSome = true →
      (Generate tpl post sdk schema cfg).map
          (fun st => (st.needRegenerate, st.overlay.top.lookup StarterTemplateFile))
        = (Generate tpl post sdk schema cfg).map (fun _ => (false, none))) := by
  cases hb : bootstrapPkg cfg.moduleName cfg.outDir ⟨[]⟩ sdk with
  | error e =>
    constructor <;> intro h <;> (unfold Generate; rw [hb]; rfl)
  | ok trip =>
    rcases trip with ⟨info, ns, mfs⟩
    cases hr : renderArtifact tpl post cfg.moduleName cfg.sourceDirPath info schema with
    | error e =>
      constructor <;> intro h <;> (unfold Generate; rw [hb]; dsimp only; rw [hr]; rfl)
    | ok f =>
      have hinv := bootstrapPkg_inv cfg.moduleName cfg.outDir ⟨[]⟩ sdk info ns mfs hb
      have hgen := Generate_eq tpl post sdk schema cfg info ns mfs f hb hr
      have htop : (installGitAttributes (mfs.write ClientGenFile (FileContent.raw f))
            ClientGenFile cfg.outDir).lookup StarterTemplateFile
          = mfs.lookup StarterTemplateFile := by
        rw [installGitAttributes_lookup_ne _ _ _ _ (by decide),
          FS.lookup_write, if_neg (by decide)]
      constructor
      · intro h
        have hisn : (cfg.outDir.lookup StarterTemplateFile).isNone = true := by
          rw [h]; rfl
        rw [hgen]
        simp only [Except.map]
        rw [htop, hinv.2.2.2, if_pos hisn, hinv.2.1, hisn]
      · intro h
        have hisn : (cfg.outDir.lookup StarterTemplateFile).isNone = false := by
          cases hv : cfg.outDir.lookup StarterTemplateFile with
          | none => rw [hv] at h; exact absurd h (by simp)
          | some c => rfl
        rw [hgen]
        simp only [Except.map]
        rw [htop, hinv.2.2.2, if_neg (by simp [hisn]), hinv.2.1, hisn]
        have hempty : (FS.mk []).lookup StarterTemplateFile = none := rfl
        rw [hempty]

/-- A workspace already carrying the starter file. -/
def withStarterFS : FS :=
  ⟨[(StarterTemplateFile, FileContent.goSrc ("main") ("package main"))]⟩

/-- The starter carrying workspace as a configuration. -/
def cfgStarter : GenConfig := ⟨"cool", ".", withStarterFS, withStarterFS⟩

/-- Witness for C2 on both sides: the fresh empty workspace gets the
scaffold and the flag set, and a workspace already carrying the starter
file gets neither. -/
theorem claimC2_witness :
    (Generate okTemplates idPost sdkEx schEx cfgFresh).map
        (fun st => (st.needRegenerate, st.overlay.top.lookup StarterTemplateFile))
      = (Generate okTemplates idPost sdkEx schEx cfgFresh).map
        (fun _ => (true, some (FileContent.goSrc ("main") (baseModuleSource ("cool")))))
    ∧ (Generate okTemplates idPost sdkEx schEx cfgStarter).map
        (fun st => (st.needRegenerate, st.overlay.top.lookup StarterTemplateFile))
      = (Generate okTemplates idPost sdkEx schEx cfgStarter).map
        (fun _ => (false, none)) := by
  constructor
  · exact (claimC2 okTemplates idPost sdkEx schEx cfgFresh).1 (by decide)
  · exact (claimC2 okTemplates idPost sdkEx schEx cfgStarter).2 (by decide)

/-- C5 counterexample: the overlay carried by the generation result does
not compose the real workspace as its base layer: at the fresh empty
workspace the base layer of the returned overlay is the embedded query
builder layer, which differs from the output directory, refuting the
claim that the result composes the base real workspace under the
generated layer. -/
theorem claimC5_cex :
    (Generate okTemplates idPost sdkEx schEx cfgFresh).map (fun st => st.overlay.base)
      = Except.ok queryBuilderFS
    ∧ queryBuilderFS ≠ cfgFresh.outDir := ⟨by decide, by decide⟩

/-- C5 amended: the generation result layers the virtual generated layer
over the fixed embedded query builder layer (composing the real
workspace is left to the caller when applying the overlay), carries
exactly the fixed post command list go mod tidy, and surfaces the needs
regenerate flag computed during scaffolding verbatim. -/
theorem claimC5_amended (tpl : Templates) (post : PostProc) (sdk : List Require)
    (schema : Schema) (cfg : GenConfig) :
    (Generate tpl post sdk schema cfg).map
        (fun st => (st.overlay.base, st.postCommands, st.needRegenerate))
      = (Generate tpl post sdk schema cfg).map
        (fun _ => (queryBuilderFS, [["go", "mod", "tidy"]],
          (cfg.outDir.lookup StarterTemplateFile).isNone)) := by
  cases hb : bootstrapPkg cfg.moduleName cfg.outDir ⟨[]⟩ sdk with
  | error e =>
    unfold Generate
    rw [hb]
    rfl
  | ok trip =>
    rcases trip with ⟨info, ns, mfs⟩
    cases hr : renderArtifact tpl post cfg.moduleName cfg.sourceDirPath info schema with
    | error e =>
      unfold Generate
      rw [hb]
      dsimp only
      rw [hr]
      rfl
    | ok f =>
      have hinv := bootstrapPkg_inv cfg.moduleName cfg.outDir ⟨[]⟩ sdk info ns mfs hb
      rw [Generate_eq tpl post sdk schema cfg info ns mfs f hb hr]
      simp only [Except.map]
      rw [hinv.2.1]

theorem bootstrapPkg_fresh (m : String) (outDir mfs0 : FS) (sdk : List Require)
    (hmod : outDir.lookup ("go.mod") = none)
    (hstart : outDir.lookup StarterTemplateFile = none) :
    bootstrapPkg m outDir mfs0 sdk
      = Except.ok (⟨probePackageName outDir, toKebab m⟩, true,
          ((mfs0.write StarterTemplateFile
              (FileContent.goSrc ("main") (baseModuleSource m))).write ("go.mod")
              (FileContent.goMod (some ⟨toKebab m, sdk⟩))).write ("go.sum")
              (FileContent.raw daggerGoSum)) := by
  unfold bootstrapPkg scaffoldStarter resolveGoMod
  rw [hmod, hstart]
  rfl

set_option maxRecDepth 16384 in
/-- C9: against a workspace with no manifest and no starter file, the
synthesized manifest declares the kebab case canonicalization of the
module name as its module identifier with exactly the baseline as its
require list, and the scaffold starter is the base module source, whose
exported type name is the camel case canonicalization of the module
name; concretely the name My Cool Thing yields the identifier
my-cool-thing, the type name MyCoolThing, and a scaffold declaring type
MyCoolThing. -/
theorem claimC9 (m : String) (outDir : FS) (sdk : List Require)
    (hmod : outDir.lookup ("go.mod") = none)
    (hstart : outDir.lookup StarterTemplateFile = none) :
    (bootstrapPkg m outDir ⟨[]⟩ sdk).map (fun x => x.1.ModulePath)
      = Except.ok (toKebab m)
    ∧ (bootstrapPkg m outDir ⟨[]⟩ sdk).map (fun x => x.2.2.lookup ("go.mod"))
      = Except.ok (some (FileContent.goMod (some ⟨toKebab m, sdk⟩)))
    ∧ (bootstrapPkg m outDir ⟨[]⟩ sdk).map
        (fun x => x.2.2.lookup StarterTemplateFile)
      = Except.ok (some (FileContent.goSrc ("main") (baseModuleSource m)))
    ∧ toKebab ("My Cool Thing") = "my-cool-thing"
    ∧ toCamel ("My Cool Thing") = "MyCoolThing"
    ∧ baseModuleSource ("My Cool Thing")
      = "package main\n\nimport (\n\t\"context\"\n)\n\ntype MyCoolThing struct \x7b\x7d\n\nfunc (m *MyCoolThing) MyFunction(ctx context.Context, stringArg string) (*Container, error) \x7b\n\treturn dag.Container().From(\"alpine:latest\").WithExec([]string\x7b\"echo\", stringArg\x7d).Sync(ctx)\n\x7d\n" := by
  rw [bootstrapPkg_fresh m outDir ⟨[]⟩ sdk hmod hstart]
  refine ⟨rfl, ?_, ?_, by decide, by decide, by decide⟩
  · simp only [Except.map]
    rw [FS.lookup_write, if_neg (by decide), FS.lookup_write, if_pos rfl]
  · simp only [Except.map]
    rw [FS.lookup_write, if_neg (by decide), FS.lookup_write, if_neg (by decide),
      FS.lookup_write, if_pos rfl]

/-- Witness for C9 at the module name My Cool Thing over the empty
workspace. -/
theorem claimC9_witness :
    (bootstrapPkg ("My Cool Thing") ⟨[]⟩ ⟨[]⟩ sdkEx).map (fun x => x.1.ModulePath)
      = Except.ok ("my-cool-thing")
    ∧ toCamel ("My Cool Thing") = "MyCoolThing" := by
  have h := claimC9 ("My Cool Thing") ⟨[]⟩ sdkEx (by decide) (by decide)
  exact ⟨h.1.trans (by decide), h.2.2.2.2.1⟩

set_option maxRecDepth 16384 in
/-- C10: the scaffold starter is written whenever the starter file is
absent, regardless of the configured module name; with an empty module
name the scaffold is the base module source of the empty string, whose
type declaration carries an empty identifier, and the synthesized
manifest module identifier is likewise the empty string. -/
theorem claimC10 (m : String) (outDir : FS) (sdk : List Require)
    (hstart : outDir.lookup StarterTemplateFile = none)
    (hmod : outDir.lookup ("go.mod") = none) :
    (bootstrapPkg m outDir ⟨[]⟩ sdk).map
        (fun x => (x.2.1, x.2.2.lookup StarterTemplateFile))
      = Except.ok (true, some (FileContent.goSrc ("main") (baseModuleSource m)))
    ∧ (bootstrapPkg ("") outDir ⟨[]⟩ sdk).map (fun x => x.1.ModulePath)
      = Except.ok ("")
    ∧ baseModuleSource ("")
      = "package main\n\nimport (\n\t\"context\"\n)\n\ntype  struct \x7b\x7d\n\nfunc (m *) MyFunction(ctx context.Context, stringArg string) (*Container, error) \x7b\n\treturn dag.Container().From(\"alpine:latest\").WithExec([]string\x7b\"echo\", stringArg\x7d).Sync(ctx)\n\x7d\n"
    ∧ toKebab ("") = "" ∧ toCamel ("") = "" := by
  refine ⟨?_, ?_, by decide, by decide, by decide⟩
  · rw [bootstrapPkg_fresh m outDir ⟨[]⟩ sdk hmod hstart]
    simp only [Except.map]
    rw [FS.lookup_write, if_neg (by decide), FS.lookup_write, if_neg (by decide),
      FS.lookup_write, if_pos rfl]
  · rw [bootstrapPkg_fresh ("") outDir ⟨[]⟩ sdk hmod hstart]
    simp only [Except.map]
    rfl

/-- Witness for C10 at a named module and at the empty module name over
the empty workspace. -/
theorem claimC10_witness :
    (bootstrapPkg ("anything") ⟨[]⟩ ⟨[]⟩ sdkEx).map
        (fun x => (x.2.1, x.2.2.lookup StarterTemplateFile))
      = Except.ok (true, some (FileContent.goSrc ("main") (baseModuleSource ("anything"))))
    ∧ (bootstrapPkg ("") ⟨[]⟩ ⟨[]⟩ sdkEx).map (fun x => x.1.ModulePath)
      = Except.ok ("") :=
  ⟨(claimC10 ("anything") ⟨[]⟩ sdkEx (by decide) (by decide)).1,
   (claimC10 ("anything") ⟨[]⟩ sdkEx (by decide) (by decide)).2.1⟩

theorem bootstrapPkg_existing (m : String) (outDir mfs0 : FS) (sdk : List Require)
    (newMod : ModFile)
    (hst : (outDir.lookup StarterTemplateFile).isSome = true)
    (hgm : outDir.lookup ("go.mod") = some (FileContent.goMod (some newMod))) :
    bootstrapPkg m outDir mfs0 sdk
      = Except.ok (⟨probePackageName outDir, newMod.modulePath⟩, false,
          (mfs0.write ("go.mod")
              (FileContent.goMod (some (reconcileRequirements newMod sdk)))).write
              ("go.sum") (FileContent.raw daggerGoSum)) := by
  unfold bootstrapPkg scaffoldStarter resolveGoMod
  rw [hgm, hst]
  rfl

set_option maxHeartbeats 1000000 in
/-- C8: generation is deterministic and idempotent. First, for any other
configuration with the same module name and template context whose
probed workspace identity coincides (same bootstrap package info), a
successful run produces a byte identical generated file. Second, after
applying the first run overlay to the workspace, when the probed package
name is unchanged (identical workspace identity), the second run
succeeds, returns needs regenerate false, and its generated file is byte
identical to the first run. -/
theorem claimC8 (tpl : Templates) (post : PostProc) (sdk : List Require) (schema : Schema)
    (cfg : GenConfig) (st1 : GeneratedState)
    (h1 : Generate tpl post sdk schema cfg = Except.ok st1)
    (hprobe : probePackageName (cfg.outDir.applyLayer st1.overlay.top)
      = probePackageName cfg.outDir) :
    (∀ cfgB stB, Generate tpl post sdk schema cfgB = Except.ok stB →
      cfgB.moduleName = cfg.moduleName →
      cfgB.sourceDirPath = cfg.sourceDirPath →
      (bootstrapPkg cfgB.moduleName cfgB.outDir ⟨[]⟩ sdk).map (fun x => x.1)
        = (bootstrapPkg cfg.moduleName cfg.outDir ⟨[]⟩ sdk).map (fun x => x.1) →
      stB.overlay.top.lookup ClientGenFile = st1.overlay.top.lookup ClientGenFile)
    ∧ (Generate tpl post sdk schema
        { cfg with outDir := cfg.outDir.applyLayer st1.overlay.top }).map
          (fun st2 => (st2.needRegenerate,
            decide (st2.overlay.top.lookup ClientGenFile
              = st1.overlay.top.lookup ClientGenFile)))
        = Except.ok (false, true) := by
  cases hb1 : bootstrapPkg cfg.moduleName cfg.outDir ⟨[]⟩ sdk with
  | error e =>
    unfold Generate at h1
    rw [hb1] at h1
    simp at h1
  | ok trip1 =>
  rcases trip1 with ⟨info1, ns1, mfs1⟩
  obtain ⟨pn1, mp1⟩ := info1
  cases hr1 : renderArtifact tpl post cfg.moduleName cfg.sourceDirPath ⟨pn1, mp1⟩ schema with
  | error e =>
    unfold Generate at h1
    rw [hb1] at h1
    dsimp only at h1
    rw [hr1] at h1
    simp at h1
  | ok f1 =>
  rw [Generate_eq tpl post sdk schema cfg ⟨pn1, mp1⟩ ns1 mfs1 f1 hb1 hr1] at h1
  injection h1 with hst1
  subst hst1
  dsimp only at hprobe ⊢
  obtain ⟨hpk1, hns1, ⟨newMod, hg1, hgm1, hgs1⟩, hstart1⟩ :=
    bootstrapPkg_inv cfg.moduleName cfg.outDir ⟨[]⟩ sdk ⟨pn1, mp1⟩ ns1 mfs1 hb1
  dsimp only at hpk1
  have hT1cg : (installGitAttributes (mfs1.write ClientGenFile (FileContent.raw f1))
        ClientGenFile cfg.outDir).lookup ClientGenFile
      = some (FileContent.raw f1) := by
    rw [installGitAttributes_lookup_ne _ _ _ _ (by decide), FS.lookup_write, if_pos rfl]
  constructor
  · intro cfgB stB hB hmn hsd hid
    cases hbB : bootstrapPkg cfgB.moduleName cfgB.outDir ⟨[]⟩ sdk with
    | error e =>
      unfold Generate at hB
      rw [hbB] at hB
      simp at hB
    | ok tripB =>
    rcases tripB with ⟨infoB, nsB, mfsB⟩
    have hinfoEq : infoB = ⟨pn1, mp1⟩ := by
      rw [hbB] at hid
      simp only [Except.map, Except.ok.injEq] at hid
      exact hid
    subst hinfoEq
    cases hrB : renderArtifact tpl post cfgB.moduleName cfgB.sourceDirPath ⟨pn1, mp1⟩ schema with
    | error e =>
      unfold Generate at hB
      rw [hbB] at hB
      dsimp only at hB
      rw [hrB] at hB
      simp at hB
    | ok fB =>
    have hfB : fB = f1 := by
      have hx := hrB
      rw [hmn, hsd, hr1] at hx
      exact (Except.ok.injEq _ _).mp hx.symm
    rw [Generate_eq tpl post sdk schema cfgB ⟨pn1, mp1⟩ nsB mfsB fB hbB hrB] at hB
    injection hB with hstB
    subst hstB
    dsimp only
    have hTBcg : (installGitAttributes (mfsB.write ClientGenFile (FileContent.raw fB))
          ClientGenFile cfgB.outDir).lookup ClientGenFile
        = some (FileContent.raw fB) := by
      rw [installGitAttributes_lookup_ne _ _ _ _ (by decide), FS.lookup_write, if_pos rfl]
    rw [hTBcg, hT1cg, hfB]
  · have hT1st : (installGitAttributes (mfs1.write ClientGenFile (FileContent.raw f1))
          ClientGenFile cfg.outDir).lookup StarterTemplateFile
        = mfs1.lookup StarterTemplateFile := by
      rw [installGitAttributes_lookup_ne _ _ _ _ (by decide), FS.lookup_write,
        if_neg (by decide)]
    have hT1gm : (installGitAttributes (mfs1.write ClientGenFile (FileContent.raw f1))
          ClientGenFile cfg.outDir).lookup ("go.mod")
        = some (FileContent.goMod (some newMod)) := by
      rw [installGitAttributes_lookup_ne _ _ _ _ (by decide), FS.lookup_write,
        if_neg (by decide)]
      exact hgm1
    have hA : ((cfg.outDir.applyLayer (installGitAttributes
          (mfs1.write ClientGenFile (FileContent.raw f1))
          ClientGenFile cfg.outDir)).lookup StarterTemplateFile).isSome = true := by
      rw [FS.lookup_applyLayer, hT1st, hstart1]
      by_cases hoc : (cfg.outDir.lookup StarterTemplateFile).isNone = true
      · rw [if_pos hoc]
        rfl
      · rw [if_neg hoc]
        have hsome : (cfg.outDir.lookup StarterTemplateFile).isSome = true := by
          cases hv : cfg.outDir.lookup StarterTemplateFile with
          | none => rw [hv] at hoc; exact absurd rfl hoc
          | some c => rfl
        cases hv : cfg.outDir.lookup StarterTemplateFile with
        | none => rw [hv] at hsome; exact absurd hsome (by simp)
        | some c => rfl
    have hB2 : (cfg.outDir.applyLayer (installGitAttributes
          (mfs1.write ClientGenFile (FileContent.raw f1))
          ClientGenFile cfg.outDir)).lookup ("go.mod")
        = some (FileContent.goMod (some newMod)) := by
      rw [FS.lookup_applyLayer, hT1gm]
    have hmp : newMod.modulePath = mp1 :=
      resolveGoMod_modulePath cfg.moduleName cfg.outDir sdk newMod mp1 hg1
    have hpn : probePackageName (cfg.outDir.applyLayer (installGitAttributes
          (mfs1.write ClientGenFile (FileContent.raw f1)) ClientGenFile cfg.outDir))
        = pn1 := by
      rw [hprobe, ← hpk1]
    have hb2 := bootstrapPkg_existing cfg.moduleName
      (cfg.outDir.applyLayer (installGitAttributes
        (mfs1.write ClientGenFile (FileContent.raw f1)) ClientGenFile cfg.outDir))
      ⟨[]⟩ sdk newMod hA hB2
    rw [hpn, hmp] at hb2
    have hgen2 := Generate_eq tpl post sdk schema
      { cfg with outDir := cfg.outDir.applyLayer (installGitAttributes
          (mfs1.write ClientGenFile (FileContent.raw f1)) ClientGenFile cfg.outDir) }
      ⟨pn1, mp1⟩ false
      (((⟨[]⟩ : FS).write ("go.mod")
          (FileContent.goMod (some (reconcileRequirements newMod sdk)))).write
          ("go.sum") (FileContent.raw daggerGoSum))
      f1 hb2 hr1
    rw [hgen2]
    simp only [Except.map]
    have hT2cg : (installGitAttributes ((((⟨[]⟩ : FS).write ("go.mod")
            (FileContent.goMod (some (reconcileRequirements newMod sdk)))).write
            ("go.sum") (FileContent.raw daggerGoSum)).write ClientGenFile
            (FileContent.raw f1)) ClientGenFile
          (cfg.outDir.applyLayer (installGitAttributes
            (mfs1.write ClientGenFile (FileContent.raw f1))
            ClientGenFile cfg.outDir))).lookup ClientGenFile
        = some (FileContent.raw f1) := by
      rw [installGitAttributes_lookup_ne _ _ _ _ (by decide), FS.lookup_write, if_pos rfl]
    rw [hT2cg, hT1cg]
    simp

/-- The generation state the first run produces on the fresh workspace. -/
def stFresh : GeneratedState :=
  { overlay := ⟨installGitAttributes (mfsFresh.write ClientGenFile
      (FileContent.raw (goJoin ("\n")
        ["package main\n", "scalar JSON\n", "object Container module\n",
          "enum NetworkProtocol\n", "input BuildArg\n", "module entry .\n"])))
      ClientGenFile ⟨[]⟩, queryBuilderFS⟩
    postCommands := [["go", "mod", "tidy"]]
    needRegenerate := true }

set_option maxRecDepth 16384 in
/-- Witness for C8: applying the first run overlay to the fresh workspace
and generating again yields needs regenerate false and a byte identical
generated file. -/
theorem claimC8_witness :
    (Generate okTemplates idPost sdkEx schEx
        { cfgFresh with outDir := cfgFresh.outDir.applyLayer stFresh.overlay.top }).map
        (fun st2 => (st2.needRegenerate,
          decide (st2.overlay.top.lookup ClientGenFile
            = stFresh.overlay.top.lookup ClientGenFile)))
      = Except.ok (false, true) :=
  (claimC8 okTemplates idPost sdkEx schEx cfgFresh stFresh (by decide) (by decide)).2

end DaggerGoGen
